import Mathlib

/-!
Verification of the Timewise calendar application's windowing core and
event-store operations, as a shallow embedding in Lean.

Modelling conventions:
* A JS `Date` value (an instant) is an `Int`: milliseconds since the Unix
  epoch.  The local timezone is taken to be UTC, so the local calendar day
  is `dayIndex t = t / 86400000` (floor division).
* `d.setDate(d.getDate() + i)` — JS day arithmetic — becomes `d + i * oneDay`.
* The JS built-ins `getFullYear` / `getMonth` / `getDate` are modelled by the
  standard proleptic Gregorian civil-from-days conversion (`civilFromDays`);
  `getMonth` is 0-based as in JS.
* React refs and DOM state become an explicit `TimelineState` record plus a
  `dom : Int → Option Int` map from a day key to its rendered `offsetTop`
  (`none` models a missing element / failed `querySelector`).
-/

/-- Milliseconds in one calendar day. -/
def oneDay : Int := 86400000

/-- Milliseconds in one hour (used by `end.setHours(end.getHours() + 1)`). -/
def oneHour : Int := 3600000

/-- The local calendar-day index of an instant (days since 1970-01-01). -/
def dayIndex (t : Int) : Int := Int.fdiv t oneDay

/-- Proleptic Gregorian (year, month 1..12, day 1..31) of a day index,
modelling the JS `Date` civil-field built-ins. -/
def civilFromDays (z0 : Int) : Int × Int × Int :=
  let z := z0 + 719468
  let era := Int.fdiv z 146097
  let doe := z - era * 146097
  let yoe := Int.ediv (doe - Int.ediv doe 1460 + Int.ediv doe 36524 - Int.ediv doe 146096) 365
  let y := yoe + era * 400
  let doy := doe - (365 * yoe + Int.ediv yoe 4 - Int.ediv yoe 100)
  let mp := Int.ediv (5 * doy + 2) 153
  let d := doy - Int.ediv (153 * mp + 2) 5 + 1
  let m := if mp < 10 then mp + 3 else mp - 9
  (if m ≤ 2 then y + 1 else y, m, d)

/-- Model of JS `Date.prototype.getFullYear` (local time = UTC). -/
def getFullYear (t : Int) : Int := (civilFromDays (dayIndex t)).1

/-- Model of JS `Date.prototype.getMonth` (0-based, local time = UTC). -/
def getMonth (t : Int) : Int := (civilFromDays (dayIndex t)).2.1 - 1

/-- Model of JS `Date.prototype.getDate` (day of month, local time = UTC). -/
def getDate (t : Int) : Int := (civilFromDays (dayIndex t)).2.2

/-- Successor step of a contiguous day window: `b` is exactly one calendar
day after `a`. -/
def nextDay (a b : Int) : Prop := b = a + oneDay

/-- The Date/Window Generator: the day-list construction
`for (let i = lo; i <= hi; i++) push(center + i days)` that appears in the
source specialised to `(-14, 21)` (initial window) and `(-14, 14)`
(jump-to-today). -/
def dayList (center lo hi : Int) : List Int :=
  (List.range (hi - lo + 1).toNat).map (fun (k : Nat) => center + (lo + (k : Int)) * oneDay)

/-- The initial-window loop of `InfiniteTimelineView` (CalendarView.tsx):
`for (let i = -14; i <= 21; i++) initialDays.push(currentDate + i days)`. -/
def initialWindow (currentDate : Int) : List Int :=
  (List.range 36).map (fun (i : Nat) => currentDate + ((i : Int) - 14) * oneDay)

/-- The day loop of `jumpToToday` (CalendarView.tsx):
`for (let i = -14; i <= 14; i++) newDays.push(today + i days)`. -/
def jumpWindow (today : Int) : List Int :=
  (List.range 29).map (fun (i : Nat) => today + ((i : Int) - 14) * oneDay)

theorem dayList_length (c lo hi : Int) (h : lo ≤ hi) :
    ((dayList c lo hi).length : Int) = hi - lo + 1 := by
  simp only [dayList, List.length_map, List.length_range]
  omega

theorem dayList_head? (c lo hi : Int) (h : lo ≤ hi) :
    (dayList c lo hi).head? = some (c + lo * oneDay) := by
  obtain ⟨n, hn⟩ : ∃ n, (hi - lo + 1).toNat = n + 1 := ⟨(hi - lo).toNat, by omega⟩
  simp [dayList, hn, List.range_succ_eq_map]

theorem dayList_getLast? (c lo hi : Int) (h : lo ≤ hi) :
    (dayList c lo hi).getLast? = some (c + hi * oneDay) := by
  obtain ⟨n, hn⟩ : ∃ n, (hi - lo + 1).toNat = n + 1 := ⟨(hi - lo).toNat, by omega⟩
  have hn2 : (n : Int) = hi - lo := by omega
  rw [dayList, hn, List.range_succ, List.map_append]
  simp only [List.map_cons, List.map_nil, List.getLast?_append, List.getLast?_singleton,
    Option.or_some]
  congr 1
  rw [hn2]
  ring

theorem dayList_chain' (c lo hi : Int) : List.Chain' nextDay (dayList c lo hi) := by
  rw [dayList, List.chain'_map]
  cases h : (hi - lo + 1).toNat with
  | zero => simp
  | succ n =>
    rw [List.chain'_range_succ]
    intro m _
    show c + (lo + ((m + 1 : Nat) : Int)) * oneDay = c + (lo + (m : Int)) * oneDay + oneDay
    push_cast
    ring

theorem dayList_getElem? (c lo hi : Int) (k : Nat) (hk : (k : Int) < hi - lo + 1) :
    (dayList c lo hi)[k]? = some (c + (lo + (k : Int)) * oneDay) := by
  rw [dayList, List.getElem?_map, List.getElem?_range (by omega)]
  rfl

theorem initialWindow_eq (c : Int) : initialWindow c = dayList c (-14) 21 := by
  rw [initialWindow, dayList]
  norm_num
  congr 1

theorem jumpWindow_eq (c : Int) : jumpWindow c = dayList c (-14) 14 := by
  rw [jumpWindow, dayList]
  norm_num
  congr 1

/-- C1: for every center date and every inclusive signed offset range
`[lo, hi]` with `lo ≤ hi`, the Date/Window Generator produces exactly
`hi - lo + 1` days, the first being `center + lo` days, each successive
entry exactly one calendar day after the previous; the initial window and
the jump-to-today window are its `(-14, 21)` and `(-14, 14)` instances. -/
theorem dayList_generator_correct (c lo hi : Int) (h : lo ≤ hi) :
    ((dayList c lo hi).length : Int) = hi - lo + 1
    ∧ (dayList c lo hi).head? = some (c + lo * oneDay)
    ∧ List.Chain' nextDay (dayList c lo hi)
    ∧ initialWindow c = dayList c (-14) 21
    ∧ jumpWindow c = dayList c (-14) 14 :=
  ⟨dayList_length c lo hi h, dayList_head? c lo hi h, dayList_chain' c lo hi,
    initialWindow_eq c, jumpWindow_eq c⟩

theorem dayList_generator_correct_witness :
    ((-2 : Int) ≤ 3)
    ∧ (((dayList 100 (-2) 3).length : Int) = 3 - (-2) + 1
      ∧ (dayList 100 (-2) 3).head? = some (100 + (-2) * oneDay)
      ∧ List.Chain' nextDay (dayList 100 (-2) 3)
      ∧ initialWindow 100 = dayList 100 (-14) 21
      ∧ jumpWindow 100 = dayList 100 (-14) 14) :=
  ⟨by norm_num, dayList_generator_correct 100 (-2) 3 (by norm_num)⟩

/-! Event data model (types.ts) and Day Bucketing (CalendarView.tsx
`getEventsForDay`). -/

/-- The `EventType` enumeration of types.ts. -/
inductive EventType where
  | CLASS | STUDY | EXAM | SOCIAL | GYM | WORK | MEETING | OTHER
deriving DecidableEq, Repr

/-- The `CalendarEvent` shape of types.ts, with the `googleId` tag set by the
external-calendar mapping.  `start` and `«end»` are instants. -/
structure CalendarEvent where
  id : String
  title : String
  description : Option String
  start : Int
  «end» : Int
  type : EventType
  color : Option String
  googleId : Option String
deriving DecidableEq, Repr

/-- The filter predicate of `getEventsForDay`: the event's start has the same
day-of-month, month and year as the target date. -/
def sameDayAs (date : Int) (e : CalendarEvent) : Bool :=
  getDate e.start == getDate date
    && getMonth e.start == getMonth date
    && getFullYear e.start == getFullYear date

/-- The ascending-by-start ordering of the `.sort((a, b) => a.start.getTime()
- b.start.getTime())` comparator. -/
def startLe (a b : CalendarEvent) : Bool := a.start ≤ b.start

/-- `getEventsForDay` of CalendarView.tsx: filter the event list to the target
calendar day, then sort ascending by start instant. -/
def getEventsForDay (events : List CalendarEvent) (date : Int) : List CalendarEvent :=
  (events.filter (sameDayAs date)).mergeSort startLe

theorem startLe_trans : ∀ a b c : CalendarEvent,
    startLe a b = true → startLe b c = true → startLe a c = true := by
  intro a b c hab hbc
  simp only [startLe, decide_eq_true_eq] at *
  omega

theorem startLe_total : ∀ a b : CalendarEvent, (startLe a b || startLe b a) = true := by
  intro a b
  simp only [startLe, Bool.or_eq_true, decide_eq_true_eq]
  omega

/-- C2: Day Bucketing returns exactly the events whose start shares the target
day's year, month and day-of-month, sorted ascending by start instant; the
day-match predicate depends only on the start's calendar day, never on its
time-of-day. -/
theorem getEventsForDay_correct (events : List CalendarEvent) (date : Int) :
    (∀ e, e ∈ getEventsForDay events date ↔
      (e ∈ events ∧ getDate e.start = getDate date ∧ getMonth e.start = getMonth date
        ∧ getFullYear e.start = getFullYear date))
    ∧ List.Pairwise (fun a b : CalendarEvent => a.start ≤ b.start) (getEventsForDay events date)
    ∧ (∀ t₁ t₂ : Int, dayIndex t₁ = dayIndex t₂ →
        getDate t₁ = getDate t₂ ∧ getMonth t₁ = getMonth t₂ ∧ getFullYear t₁ = getFullYear t₂) := by
  refine ⟨?_, ?_, ?_⟩
  · intro e
    rw [getEventsForDay, List.mem_mergeSort, List.mem_filter]
    simp only [sameDayAs, Bool.and_eq_true, beq_iff_eq, and_assoc]
  · have hp := List.sorted_mergeSort startLe_trans startLe_total (events.filter (sameDayAs date))
    exact hp.imp (by intro a b h; simpa [startLe] using h)
  · intro t₁ t₂ h
    simp [getDate, getMonth, getFullYear, h]

/-! Edge extension of the Day Window (CalendarView.tsx `handleScroll`):
the 10-day prepend and append blocks. -/

/-- The prepend branch of `handleScroll`: from the window's first day build
`for (let i = 10; i >= 1; i--) push(firstDate - i days)` and splice it in
front.  An empty window is left unchanged (the JS code would read
`prev[0]` as `undefined` there; the contiguity claims assume non-empty). -/
def prependBlock (prev : List Int) : List Int :=
  match prev with
  | [] => prev
  | firstDate :: _ =>
    ((List.range 10).map (fun (k : Nat) => firstDate - ((10 : Int) - (k : Int)) * oneDay)) ++ prev

/-- The append branch of `handleScroll`: from the window's last day build
`for (let i = 1; i <= 10; i++) push(lastDate + i days)` and splice it on
the end.  An empty window is left unchanged. -/
def appendBlock (prev : List Int) : List Int :=
  match prev.getLast? with
  | none => prev
  | some lastDate =>
    prev ++ ((List.range 10).map (fun (k : Nat) => lastDate + ((k : Int) + 1) * oneDay))

theorem prependBlock_newDays (f : Int) :
    (List.range 10).map (fun (k : Nat) => f - ((10 : Int) - (k : Int)) * oneDay)
      = dayList f (-10) (-1) := by
  rw [dayList]
  norm_num
  congr 1
  funext k
  ring

theorem appendBlock_newDays (l : Int) :
    (List.range 10).map (fun (k : Nat) => l + ((k : Int) + 1) * oneDay)
      = dayList l 1 10 := by
  have h10 : ((10 : Int) - 1 + 1).toNat = 10 := rfl
  rw [dayList, h10]
  refine List.map_congr_left ?_
  intro k _
  ring

theorem chain'_nextDay_lt {w : List Int} (h : List.Chain' nextDay w) :
    List.Chain' (fun a b : Int => a < b) w := by
  refine h.imp ?_
  intro a b hab
  simp only [nextDay, oneDay] at hab
  omega

theorem chain'_nextDay_nodup {w : List Int} (h : List.Chain' nextDay w) : w.Nodup := by
  have h2 : List.Pairwise (fun a b : Int => a < b) w :=
    List.chain'_iff_pairwise.mp (chain'_nextDay_lt h)
  exact h2.imp (fun hab => ne_of_lt hab)

/-- C3: both edge extensions preserve the contiguous strictly-increasing
window invariant: prepending (resp. appending) a 10-day block to a non-empty
contiguous window of `N` days yields `N + 10` contiguous duplicate-free days,
the newly added last (resp. first) day sitting exactly one day before the old
first day (resp. after the old last day). -/
theorem edgeExtension_preserves_invariant (w : List Int) (f l : Int)
    (hf : w.head? = some f) (hl : w.getLast? = some l)
    (hc : List.Chain' nextDay w) :
    ((prependBlock w).length = w.length + 10
      ∧ List.Chain' nextDay (prependBlock w)
      ∧ (prependBlock w).Nodup
      ∧ (prependBlock w)[9]? = some (f - oneDay)
      ∧ (prependBlock w).head? = some (f - 10 * oneDay))
    ∧ ((appendBlock w).length = w.length + 10
      ∧ List.Chain' nextDay (appendBlock w)
      ∧ (appendBlock w).Nodup
      ∧ (appendBlock w)[w.length]? = some (l + oneDay)) := by
  obtain ⟨t, rfl⟩ := List.head?_eq_some_iff.mp hf
  have hpre : prependBlock (f :: t) = dayList f (-10) (-1) ++ (f :: t) := by
    rw [prependBlock, prependBlock_newDays]
  have happ : appendBlock (f :: t) = (f :: t) ++ dayList l 1 10 := by
    rw [appendBlock, hl]
    show (f :: t) ++ (List.range 10).map (fun (k : Nat) => l + ((k : Int) + 1) * oneDay)
      = (f :: t) ++ dayList l 1 10
    rw [appendBlock_newDays]
  have hlen10 : (dayList f (-10) (-1)).length = 10 := by
    have := dayList_length f (-10) (-1) (by norm_num)
    omega
  have hchain_pre : List.Chain' nextDay (prependBlock (f :: t)) := by
    rw [hpre, List.chain'_append]
    refine ⟨dayList_chain' f (-10) (-1), hc, ?_⟩
    intro x hx y hy
    rw [dayList_getLast? f (-10) (-1) (by norm_num)] at hx
    simp only [Option.mem_def, Option.some_inj] at hx hy
    simp only [List.head?_cons, Option.some_inj] at hy
    subst hx
    subst hy
    show f = f + -1 * oneDay + oneDay
    ring
  have hchain_app : List.Chain' nextDay (appendBlock (f :: t)) := by
    rw [happ, List.chain'_append]
    refine ⟨hc, dayList_chain' l 1 10, ?_⟩
    intro x hx y hy
    rw [hl] at hx
    rw [dayList_head? l 1 10 (by norm_num)] at hy
    simp only [Option.mem_def, Option.some_inj] at hx hy
    subst hx
    subst hy
    show l + 1 * oneDay = l + oneDay
    ring
  refine ⟨⟨?_, hchain_pre, chain'_nextDay_nodup hchain_pre, ?_, ?_⟩,
    ⟨?_, hchain_app, chain'_nextDay_nodup hchain_app, ?_⟩⟩
  · rw [hpre]
    simp [hlen10]
    omega
  · rw [hpre, List.getElem?_append, if_pos (by omega),
      dayList_getElem? f (-10) (-1) 9 (by norm_num)]
    norm_num
    ring
  · rw [hpre]
    rcases hh : (dayList f (-10) (-1)) with _ | ⟨a, rest⟩
    · rw [hh] at hlen10
      simp at hlen10
    · have hhd : (dayList f (-10) (-1)).head? = some (f + (-10) * oneDay) :=
        dayList_head? f (-10) (-1) (by norm_num)
      rw [hh] at hhd
      simp only [List.head?_cons, Option.some_inj] at hhd
      simp only [List.cons_append, List.head?_cons, hhd]
      congr 1
  · rw [happ]
    have := dayList_length l 1 10 (by norm_num)
    simp
    omega
  · rw [happ, List.getElem?_append_right (le_refl _), Nat.sub_self,
      dayList_getElem? l 1 10 0 (by norm_num)]
    norm_num

theorem edgeExtension_preserves_invariant_witness :
    ((prependBlock [0, 86400000, 172800000]).length = ([0, 86400000, 172800000] : List Int).length + 10
      ∧ List.Chain' nextDay (prependBlock [0, 86400000, 172800000])
      ∧ (prependBlock [0, 86400000, 172800000]).Nodup
      ∧ (prependBlock [0, 86400000, 172800000])[9]? = some (0 - oneDay)
      ∧ (prependBlock [0, 86400000, 172800000]).head? = some (0 - 10 * oneDay))
    ∧ ((appendBlock [0, 86400000, 172800000]).length = ([0, 86400000, 172800000] : List Int).length + 10
      ∧ List.Chain' nextDay (appendBlock [0, 86400000, 172800000])
      ∧ (appendBlock [0, 86400000, 172800000]).Nodup
      ∧ (appendBlock [0, 86400000, 172800000])[([0, 86400000, 172800000] : List Int).length]?
          = some (172800000 + oneDay)) :=
  edgeExtension_preserves_invariant [0, 86400000, 172800000] 0 172800000 rfl rfl
    (by norm_num [List.chain'_cons, nextDay, oneDay])

/-! The Timeline Window Controller (CalendarView.tsx `InfiniteTimelineView`):
refs and DOM interactions become an explicit state record.  The scroll
container itself is assumed mounted (the handlers early-return when it is
not, leaving the state unchanged); the rendered DOM is a partial map
`dom : Int → Option Int` from a day key to its `offsetTop`. -/

/-- The refs of `InfiniteTimelineView`: the materialized day window, the
extension-in-flight flag (`isPrependingRef`), the captured Scroll Anchor
(`anchorElementRef` / `anchorOffsetRef`), the velocity sample
(`lastScrollTimeRef` / `lastScrollTopRef`), the rapid-scroll flag, and the
container's scroll offset. -/
structure TimelineState where
  timelineDays : List Int
  isPrepending : Bool
  anchorElement : Option Int
  anchorOffset : Int
  lastScrollTime : Int
  lastScrollTop : Int
  isRapidScrolling : Bool
  scrollTop : Int
deriving DecidableEq, Repr

/-- The rapid-scroll classifier inside `handleScroll`: set on more than 80 px
within less than 120 ms, cleared after more than 200 ms, otherwise kept. -/
def classifyRapid (prevRapid : Bool) (timeDelta : Int) (scrollDelta : Nat) : Bool :=
  if timeDelta < 120 ∧ 80 < scrollDelta then true
  else if 200 < timeDelta then false
  else prevRapid

/-- The synchronous part of `handleScroll`: update the velocity sample and the
rapid flag; within 800 px of the top and with no extension in flight, mark the
extension in flight, capture the Scroll Anchor from the first rendered child
(`firstChild`, `none` when the wrapper is empty or carries no date) unless
rapid-scrolling, and schedule the deferred prepend (returned flag); otherwise
within 400 px of the bottom append a 10-day block immediately. -/
def handleScrollSync (s : TimelineState) (tNow scrollTop scrollHeight clientHeight : Int)
    (firstChild : Option (Int × Int)) : TimelineState × Bool :=
  let timeDelta := tNow - s.lastScrollTime
  let scrollDelta := (scrollTop - s.lastScrollTop).natAbs
  let rapid := classifyRapid s.isRapidScrolling timeDelta scrollDelta
  let s1 := { s with isRapidScrolling := rapid, lastScrollTime := tNow,
                     lastScrollTop := scrollTop, scrollTop := scrollTop }
  if scrollTop < 800 ∧ s1.isPrepending = false then
    let s2 := { s1 with isPrepending := true }
    let s3 :=
      if rapid = false then
        match firstChild with
        | some kv => { s2 with anchorElement := some kv.1, anchorOffset := kv.2 }
        | none => s2
      else s2
    (s3, true)
  else if scrollHeight - scrollTop - clientHeight < 400 ∧ s1.isPrepending = false then
    ({ s1 with timelineDays := appendBlock s1.timelineDays }, false)
  else (s1, false)

/-- The deferred `setTimeout`/`requestAnimationFrame` callback of the prepend
branch: splice the 10-day block onto the window's start. -/
def applyPrepend (s : TimelineState) : TimelineState :=
  { s with timelineDays := prependBlock s.timelineDays }

/-- The `useLayoutEffect` on `timelineDays` (anchor restoration): when an
extension is in flight and an anchor day was captured, and unless
rapid-scrolling, look the anchor up in the rendered DOM and shift `scrollTop`
by the offset delta when found; then clear the flag and the anchor. -/
def layoutEffect (dom : Int → Option Int) (s : TimelineState) : TimelineState :=
  if s.isPrepending = true ∧ s.anchorElement.isSome then
    let s1 :=
      if s.isRapidScrolling = false then
        match s.anchorElement with
        | some key =>
          match dom key with
          | some currentOffset =>
            { s with scrollTop := s.scrollTop + (currentOffset - s.anchorOffset) }
          | none => s
        | none => s
      else s
    { s1 with isPrepending := false, anchorElement := none }
  else s

/-- `jumpToToday` of CalendarView.tsx: replace the window by the symmetric
±14-day window around the supplied now, clear the in-flight flag, and notify
the parent (`onDateClick(today)`, the returned payload).  The subsequent
smooth scroll is a pure DOM effect and is not part of the state. -/
def jumpToToday (s : TimelineState) (now : Int) : TimelineState × Option Int :=
  ({ s with timelineDays := jumpWindow now, isPrepending := false }, some now)

/-- The debounced visible-day scan of `handleScroll`: the first rendered row
(in document order, as `(dayKey, rect.bottom)` pairs) whose bottom edge lies
below `containerTop + 80`. -/
def findVisibleRow (rows : List (Int × Int)) (containerTop : Int) : Option (Int × Int) :=
  rows.find? (fun r => containerTop + 80 < r.2)

/-- The notification decision of the visible-day scan: report the visible
day's date via `onDateClick` only when its month or year differs from the
currently displayed `currentDate`. -/
def visibleDayCheck (rows : List (Int × Int)) (containerTop currentDate : Int) : Option Int :=
  match findVisibleRow rows containerTop with
  | some r =>
    if getMonth r.1 ≠ getMonth currentDate ∨ getFullYear r.1 ≠ getFullYear currentDate then
      some r.1
    else none
  | none => none

/-- C6: `jumpToToday` replaces the window with exactly the 29 contiguous days
from `now - 14` days to `now + 14` days, independent of every prior window
content, and clears the extension-in-flight flag (and notifies the parent of
`now`). -/
theorem jumpToToday_correct (s : TimelineState) (now : Int) :
    (jumpToToday s now).1.timelineDays = dayList now (-14) 14
    ∧ (((jumpToToday s now).1.timelineDays.length : Int) = 29)
    ∧ (jumpToToday s now).1.timelineDays.head? = some (now - 14 * oneDay)
    ∧ (jumpToToday s now).1.timelineDays.getLast? = some (now + 14 * oneDay)
    ∧ List.Chain' nextDay (jumpToToday s now).1.timelineDays
    ∧ (jumpToToday s now).1.isPrepending = false
    ∧ (jumpToToday s now).2 = some now := by
  have hdays : (jumpToToday s now).1.timelineDays = dayList now (-14) 14 := jumpWindow_eq now
  refine ⟨hdays, ?_, ?_, ?_, ?_, rfl, rfl⟩
  · rw [hdays, dayList_length now (-14) 14 (by norm_num)]
    norm_num
  · rw [hdays, dayList_head? now (-14) 14 (by norm_num)]
    congr 1
  · rw [hdays, dayList_getLast? now (-14) 14 (by norm_num)]
  · rw [hdays]
    exact dayList_chain' now (-14) 14

/-- C4 counterexample: a post-render invocation with the extension-in-flight
flag set but no captured anchor (the rapid-scroll prepend path) leaves the
flag set: the guard of the layout effect requires a captured anchor, so
nothing is cleared. -/
theorem layoutEffect_inflight_not_cleared :
    (⟨[0], true, none, 0, 0, 0, false, 500⟩ : TimelineState).isPrepending = true
    ∧ (layoutEffect (fun _ => none) ⟨[0], true, none, 0, 0, 0, false, 500⟩).isPrepending = true :=
  ⟨rfl, rfl⟩

/-- C4 (amended): for every post-render invocation of the layout effect while
an extension is in flight and a Scroll Anchor was captured, the in-flight
flag and the anchor are cleared by the end of the handler regardless of
whether the anchor element is found in the DOM, and when it is not found no
scroll-offset correction is applied. -/
theorem layoutEffect_clears_when_anchored (dom : Int → Option Int) (s : TimelineState)
    (hp : s.isPrepending = true) (ha : s.anchorElement.isSome = true) :
    (layoutEffect dom s).isPrepending = false
    ∧ (layoutEffect dom s).anchorElement = none
    ∧ (∀ k, s.anchorElement = some k → dom k = none →
        (layoutEffect dom s).scrollTop = s.scrollTop) := by
  unfold layoutEffect
  rw [if_pos ⟨hp, ha⟩]
  refine ⟨rfl, rfl, ?_⟩
  intro k hk hdom
  cases hr : s.isRapidScrolling <;> simp [hr, hk, hdom]

theorem layoutEffect_clears_when_anchored_witness :
    (layoutEffect (fun _ => none) ⟨[0], true, some 0, 5, 0, 0, false, 300⟩).isPrepending = false
    ∧ (layoutEffect (fun _ => none) ⟨[0], true, some 0, 5, 0, 0, false, 300⟩).scrollTop = 300 :=
  ⟨(layoutEffect_clears_when_anchored (fun _ => none)
      ⟨[0], true, some 0, 5, 0, 0, false, 300⟩ rfl rfl).1,
    (layoutEffect_clears_when_anchored (fun _ => none)
      ⟨[0], true, some 0, 5, 0, 0, false, 300⟩ rfl rfl).2.2 0 rfl rfl⟩

theorem handleScrollSync_isRapid (s : TimelineState)
    (tNow scrollTop scrollHeight clientHeight : Int) (firstChild : Option (Int × Int)) :
    (handleScrollSync s tNow scrollTop scrollHeight clientHeight firstChild).1.isRapidScrolling
      = classifyRapid s.isRapidScrolling (tNow - s.lastScrollTime)
          ((scrollTop - s.lastScrollTop).natAbs) := by
  unfold handleScrollSync
  dsimp only
  split_ifs <;> first
    | rfl
    | (cases firstChild <;> rfl)

theorem handleScrollSync_rapid_keeps_anchor (s : TimelineState)
    (tNow scrollTop scrollHeight clientHeight : Int) (firstChild : Option (Int × Int))
    (h : classifyRapid s.isRapidScrolling (tNow - s.lastScrollTime)
        ((scrollTop - s.lastScrollTop).natAbs) = true) :
    (handleScrollSync s tNow scrollTop scrollHeight clientHeight firstChild).1.anchorElement
      = s.anchorElement
    ∧ (handleScrollSync s tNow scrollTop scrollHeight clientHeight firstChild).1.anchorOffset
      = s.anchorOffset := by
  unfold handleScrollSync
  dsimp only
  split_ifs with h1 h2 h3 <;> first
    | exact ⟨rfl, rfl⟩
    | simp_all

theorem classifyRapid_iff (prev : Bool) (td : Int) (sd : Nat) :
    classifyRapid prev td sd = true
      ↔ ((td < 120 ∧ 80 < sd) ∨ (prev = true ∧ td ≤ 200)) := by
  unfold classifyRapid
  cases prev <;> split_ifs <;> simp_all

theorem layoutEffect_rapid_no_adjustment (dom : Int → Option Int) (t : TimelineState)
    (h : t.isRapidScrolling = true) : (layoutEffect dom t).scrollTop = t.scrollTop := by
  unfold layoutEffect
  split_ifs with hg hr
  · rw [h] at hr
    simp at hr
  · rfl
  · rfl

/-- C5: the rapid-scroll state after a scroll sample is set exactly when the
sample moved more than 80 px within less than 120 ms, or the state was already
rapid and no more than 200 ms have elapsed; while rapid, the near-top prepend
leaves the Scroll Anchor untouched, and the post-render effect applies no
scroll adjustment. -/
theorem rapidScroll_suppression_correct (s : TimelineState)
    (tNow scrollTop scrollHeight clientHeight : Int) (firstChild : Option (Int × Int)) :
    ((handleScrollSync s tNow scrollTop scrollHeight clientHeight firstChild).1.isRapidScrolling = true
      ↔ ((tNow - s.lastScrollTime < 120 ∧ 80 < (scrollTop - s.lastScrollTop).natAbs)
        ∨ (s.isRapidScrolling = true ∧ tNow - s.lastScrollTime ≤ 200)))
    ∧ ((handleScrollSync s tNow scrollTop scrollHeight clientHeight firstChild).1.isRapidScrolling = true →
        (handleScrollSync s tNow scrollTop scrollHeight clientHeight firstChild).1.anchorElement
          = s.anchorElement
        ∧ (handleScrollSync s tNow scrollTop scrollHeight clientHeight firstChild).1.anchorOffset
          = s.anchorOffset)
    ∧ (∀ (dom : Int → Option Int) (t : TimelineState), t.isRapidScrolling = true →
        (layoutEffect dom t).scrollTop = t.scrollTop) := by
  refine ⟨?_, ?_, layoutEffect_rapid_no_adjustment⟩
  · rw [handleScrollSync_isRapid]
    exact classifyRapid_iff s.isRapidScrolling _ _
  · intro h
    rw [handleScrollSync_isRapid] at h
    exact handleScrollSync_rapid_keeps_anchor s tNow scrollTop scrollHeight clientHeight firstChild h

theorem rapidScroll_suppression_witness :
    (handleScrollSync ⟨[0], false, none, 0, 0, 0, false, 0⟩ 100 100 5000 600
        (some (0, 40))).1.isRapidScrolling = true
    ∧ (handleScrollSync ⟨[0], false, none, 0, 0, 0, false, 0⟩ 100 100 5000 600
        (some (0, 40))).1.anchorElement = none := by
  have h := rapidScroll_suppression_correct ⟨[0], false, none, 0, 0, 0, false, 0⟩
    100 100 5000 600 (some (0, 40))
  have hrapid := h.1.mpr (Or.inl (by norm_num))
  exact ⟨hrapid, (h.2.1 hrapid).1.trans rfl⟩

/-- C7: the Visible Day is the first rendered row in document order whose
bottom edge exceeds the container top plus 80 px, and no parent notification
is produced when that day's month and year both equal the currently displayed
month and year. -/
theorem visibleDay_detection_correct (rows : List (Int × Int)) (containerTop currentDate : Int) :
    (∀ l₁ r l₂, rows = l₁ ++ r :: l₂ → (∀ x ∈ l₁, x.2 ≤ containerTop + 80) →
      containerTop + 80 < r.2 → findVisibleRow rows containerTop = some r)
    ∧ (∀ r, findVisibleRow rows containerTop = some r →
        getMonth r.1 = getMonth currentDate → getFullYear r.1 = getFullYear currentDate →
        visibleDayCheck rows containerTop currentDate = none) := by
  constructor
  · intro l₁ r l₂ hrows hl₁ hr
    rw [hrows, findVisibleRow, List.find?_append]
    have h1 : List.find? (fun x => decide (containerTop + 80 < x.2)) l₁ = none := by
      rw [List.find?_eq_none]
      intro x hx
      simp only [decide_eq_true_eq, not_lt]
      exact hl₁ x hx
    rw [h1, List.find?_cons_of_pos _ (by simp [hr])]
    rfl
  · intro r hfind hm hy
    unfold visibleDayCheck
    rw [hfind]
    simp [hm, hy]

theorem visibleDay_detection_witness :
    findVisibleRow [(0, 50), (432000000, 200)] 0 = some (432000000, 200)
    ∧ visibleDayCheck [(0, 50), (432000000, 200)] 0 432000000 = none := by
  have h := visibleDay_detection_correct [(0, 50), (432000000, 200)] 0 432000000
  have h1 := h.1 [(0, 50)] (432000000, 200) [] rfl (by norm_num) (by norm_num)
  exact ⟨h1, h.2 (432000000, 200) h1 rfl rfl⟩

/-! External-calendar event mapping (googleCalendarService.ts) and manual
event creation (SmartScheduler.tsx). -/

/-- The fields of a Google Calendar API event resource that the mapping
reads: `start`/`end` carry either a `dateTime` or an all-day `date`. -/
structure GoogleApiEvent where
  id : String
  summary : Option String
  description : Option String
  startDateTime : Option Int
  startDate : Int
  endDateTime : Option Int
  endDate : Int
deriving DecidableEq, Repr

/-- The parsed start instant: `gEvent.start.dateTime ?? gEvent.start.date`. -/
def gStart (g : GoogleApiEvent) : Int := g.startDateTime.getD g.startDate

/-- The parsed end instant: `gEvent.end.dateTime ?? gEvent.end.date`. -/
def gEnd (g : GoogleApiEvent) : Int := g.endDateTime.getD g.endDate

/-- `mapGoogleEventToAppEvent` of googleCalendarService.ts: parse the start
and end instants and, when `end <= start`, advance the end by one hour. -/
def mapGoogleEventToAppEvent (g : GoogleApiEvent) : CalendarEvent :=
  let start := gStart g
  let end0 := gEnd g
  let end1 := if end0 ≤ start then end0 + oneHour else end0
  { id := g.id
    googleId := some g.id
    title := g.summary.getD "(No Title)"
    description := some (g.description.getD "")
    start := start
    «end» := end1
    type := EventType.OTHER
    color := some "#4285F4" }

/-- The event constructed by `handleManualSubmit` of SmartScheduler.tsx:
start and end are taken from the form as given, with no correction. -/
def handleManualSubmitEvent (idNow : Int) (manualTitle : String)
    (manualDate manualStartTime manualEndTime : Int) (manualRepetition : String) :
    CalendarEvent :=
  { id := toString idNow
    title := manualTitle
    description := some ("Repeats: " ++ manualRepetition)
    start := manualDate + manualStartTime
    «end» := manualDate + manualEndTime
    type := EventType.OTHER
    color := none
    googleId := none }

/-- C8 counterexample: a manually created event whose form end time (09:00)
precedes its start time (10:00) is handed to the store with `end < start` and
no one-hour correction — the auto-correction exists only in the Google
mapping path. -/
theorem manualEvent_end_not_corrected :
    (handleManualSubmitEvent 0 "Standup" 0 36000000 32400000 "None").«end» = 32400000
    ∧ ¬ ((handleManualSubmitEvent 0 "Standup" 0 36000000 32400000 "None").start
        < (handleManualSubmitEvent 0 "Standup" 0 36000000 32400000 "None").«end») := by
  refine ⟨rfl, ?_⟩
  decide

/-- C8 (amended): events mapped from Google Calendar are auto-corrected —
when the parsed end is not strictly after the parsed start the end is
advanced by exactly one hour before the event is stored, and is kept as
parsed otherwise — while events built by the manual scheduler form keep the
supplied start and end unchanged, so `end > start` is not enforced there. -/
theorem endCorrection_google_only (g : GoogleApiEvent) :
    ((mapGoogleEventToAppEvent g).start = gStart g)
    ∧ (gEnd g ≤ gStart g → (mapGoogleEventToAppEvent g).«end» = gEnd g + oneHour)
    ∧ (gStart g < gEnd g → (mapGoogleEventToAppEvent g).«end» = gEnd g)
    ∧ (∀ idNow title d st en rep,
        (handleManualSubmitEvent idNow title d st en rep).start = d + st
        ∧ (handleManualSubmitEvent idNow title d st en rep).«end» = d + en) := by
  refine ⟨rfl, ?_, ?_, fun idNow title d st en rep => ⟨rfl, rfl⟩⟩
  · intro h
    show (if gEnd g ≤ gStart g then gEnd g + oneHour else gEnd g) = gEnd g + oneHour
    rw [if_pos h]
  · intro h
    show (if gEnd g ≤ gStart g then gEnd g + oneHour else gEnd g) = gEnd g
    rw [if_neg (by omega)]

theorem endCorrection_google_only_witness :
    (mapGoogleEventToAppEvent ⟨"g1", some "All day", none, none, 0, none, 0⟩).«end»
      = gEnd ⟨"g1", some "All day", none, none, 0, none, 0⟩ + oneHour :=
  (endCorrection_google_only ⟨"g1", some "All day", none, none, 0, none, 0⟩).2.1 (le_refl 0)

/-! User settings persistence (App.tsx / types.ts). -/

/-- The `theme` union of types.ts. -/
inductive Theme where
  | light | dark
deriving DecidableEq, Repr

/-- The `UserSettings` shape of types.ts: flags only. -/
structure UserSettings where
  theme : Theme
  isGoogleConnected : Bool
  hasCompletedTour : Bool
deriving DecidableEq, Repr

def themeToString : Theme → String
  | Theme.light => "light"
  | Theme.dark => "dark"

def boolToJson (b : Bool) : String := if b then "true" else "false"

/-- Model of `JSON.stringify(settings)` on the flags-only settings shape. -/
def encodeSettings (s : UserSettings) : String :=
  "\x7b\"theme\":\"" ++ themeToString s.theme
    ++ "\",\"isGoogleConnected\":" ++ boolToJson s.isGoogleConnected
    ++ ",\"hasCompletedTour\":" ++ boolToJson s.hasCompletedTour ++ "\x7d"

/-- All eight values of the flags-only settings record. -/
def allSettings : List UserSettings :=
  [⟨Theme.light, false, false⟩, ⟨Theme.light, false, true⟩,
   ⟨Theme.light, true, false⟩, ⟨Theme.light, true, true⟩,
   ⟨Theme.dark, false, false⟩, ⟨Theme.dark, false, true⟩,
   ⟨Theme.dark, true, false⟩, ⟨Theme.dark, true, true⟩]

/-- Model of `JSON.parse` restricted to the settings shape: succeeds exactly
on the encodings of settings values; `none` models a thrown `SyntaxError`
(caught by the initializer). -/
def parseSettings (str : String) : Option UserSettings :=
  allSettings.find? (fun v => encodeSettings v == str)

/-- The documented defaults: dark theme, not connected, tour incomplete. -/
def defaultSettings : UserSettings := ⟨Theme.dark, false, false⟩

/-- The settings `useState` initializer of App.tsx: read
`localStorage.getItem("regalPlanSettings")`; a missing or empty value and a
parse failure both fall back to the defaults. -/
def loadSettings (stored : Option String) : UserSettings :=
  match stored with
  | none => defaultSettings
  | some saved =>
    if saved = "" then defaultSettings
    else (parseSettings saved).getD defaultSettings

/-- The persistence effect of App.tsx:
`localStorage.setItem("regalPlanSettings", JSON.stringify(settings))`. -/
def saveSettings (s : UserSettings) : String := encodeSettings s

/-- C9: persisting the settings and restoring them yields the original value
in all fields; restoring a missing value or one that fails to parse yields
exactly the defaults (dark theme, not connected, tour incomplete). -/
theorem settings_roundtrip_correct :
    (∀ v : UserSettings, loadSettings (some (saveSettings v)) = v)
    ∧ loadSettings none = defaultSettings
    ∧ (∀ str, parseSettings str = none → loadSettings (some str) = defaultSettings) := by
  refine ⟨?_, rfl, ?_⟩
  · intro v
    rcases v with ⟨t, b, c⟩
    cases t <;> cases b <;> cases c <;> rfl
  · intro str h
    show (if str = "" then defaultSettings else (parseSettings str).getD defaultSettings)
      = defaultSettings
    by_cases hs : str = ""
    · rw [if_pos hs]
    · rw [if_neg hs, h]
      rfl

theorem settings_roundtrip_witness :
    loadSettings (some (saveSettings ⟨Theme.light, true, false⟩)) = ⟨Theme.light, true, false⟩
    ∧ loadSettings (some "garbage") = defaultSettings :=
  ⟨settings_roundtrip_correct.1 ⟨Theme.light, true, false⟩,
    settings_roundtrip_correct.2.2 "garbage" (by decide)⟩

/-! The store's update operation (App.tsx `handleUpdateEvent`). -/

/-- `handleUpdateEvent` of App.tsx:
`prev.map((e) => (e.id === updatedEvent.id ? updatedEvent : e))`. -/
def handleUpdateEvent (updatedEvent : CalendarEvent) (prev : List CalendarEvent) :
    List CalendarEvent :=
  prev.map (fun e => if e.id = updatedEvent.id then updatedEvent else e)

/-- C10: updating preserves length and order, replaces exactly the events
whose identifier matches the updated event's, leaves all others unchanged,
and is the identity when no identifier matches. -/
theorem handleUpdateEvent_correct (u : CalendarEvent) (l : List CalendarEvent) :
    (handleUpdateEvent u l).length = l.length
    ∧ (∀ i : Nat, (handleUpdateEvent u l)[i]?
        = (l[i]?).map (fun e => if e.id = u.id then u else e))
    ∧ ((∀ e ∈ l, e.id ≠ u.id) → handleUpdateEvent u l = l) := by
  refine ⟨List.length_map _ _, ?_, ?_⟩
  · intro i
    exact List.getElem?_map _ _ _
  · intro h
    have hcongr : ∀ e ∈ l, (if e.id = u.id then u else e) = e := fun e he => if_neg (h e he)
    rw [handleUpdateEvent, List.map_congr_left hcongr, List.map_id']

def evA : CalendarEvent :=
  ⟨"1", "Weekly Leadership", none, 0, 1800000, EventType.MEETING, none, none⟩

def evB : CalendarEvent :=
  ⟨"2", "Product Strategy", none, 7200000, 14400000, EventType.MEETING, none, none⟩

def evU : CalendarEvent :=
  ⟨"3", "Kick-Off", none, 0, 3600000, EventType.WORK, none, none⟩

theorem handleUpdateEvent_witness :
    handleUpdateEvent evU [evA, evB] = [evA, evB]
    ∧ (handleUpdateEvent evU [evA, evB])[0]?
      = (([evA, evB] : List CalendarEvent)[0]?).map (fun e => if e.id = evU.id then evU else e) :=
  ⟨(handleUpdateEvent_correct evU [evA, evB]).2.2 (by decide),
    (handleUpdateEvent_correct evU [evA, evB]).2.1 0⟩

theorem getEventsForDay_witness :
    getDate 3600000 = getDate 7200000 ∧ getMonth 3600000 = getMonth 7200000
    ∧ getFullYear 3600000 = getFullYear 7200000 :=
  (getEventsForDay_correct [] 0).2.2 3600000 7200000 (by decide)
